import Mathlib

/-!
Shallow embedding of the Raycasting_diorama ray tracer (src/main.rs,
src/material.rs, src/texture.rs).  Floating-point (`f32`) values are
idealized as real numbers.  Modules of the repository that are referenced
by `main.rs` but are not present under `src/` (`color.rs`, `cube.rs`,
`camera.rs`, `ray_intersect.rs`) are modelled from the specification, as
indicated on each such definition.
-/

set_option maxHeartbeats 1000000

noncomputable section

namespace Raycast

/-- A 3-component vector (`nalgebra_glm::Vec3`, spec section 3 Vector3),
components idealized as reals. -/
structure Vec3 where
  x : ℝ
  y : ℝ
  z : ℝ

instance : Add Vec3 := ⟨fun a b => ⟨a.x + b.x, a.y + b.y, a.z + b.z⟩⟩

instance : Sub Vec3 := ⟨fun a b => ⟨a.x - b.x, a.y - b.y, a.z - b.z⟩⟩

instance : Neg Vec3 := ⟨fun a => ⟨-a.x, -a.y, -a.z⟩⟩

instance : SMul ℝ Vec3 := ⟨fun r a => ⟨r * a.x, r * a.y, r * a.z⟩⟩

/-- Dot product of two vectors. -/
def Vec3.dot (a b : Vec3) : ℝ := a.x * b.x + a.y * b.y + a.z * b.z

/-- Euclidean length (`magnitude` in nalgebra_glm). -/
def Vec3.magnitude (v : Vec3) : ℝ := Real.sqrt (v.dot v)

/-- Unit vector in the direction of `v` (`normalize` in nalgebra_glm):
the vector divided by its length. -/
def Vec3.normalize (v : Vec3) : Vec3 := (1 / v.magnitude) • v

/-- Modelled from the spec: `color.rs` is not under `src/`.  Per spec
section 3, a Color holds three channels and all arithmetic (componentwise
add and multiply, scalar multiply) happens in an unclamped real domain. -/
structure Color where
  red : ℝ
  green : ℝ
  blue : ℝ

instance : Add Color := ⟨fun a b => ⟨a.red + b.red, a.green + b.green, a.blue + b.blue⟩⟩

instance : HMul Color ℝ Color := ⟨fun c s => ⟨c.red * s, c.green * s, c.blue * s⟩⟩

instance : SMul ℝ Color := ⟨fun s c => ⟨s * c.red, s * c.green, s * c.blue⟩⟩

instance : HMul Color Color Color :=
  ⟨fun a b => ⟨a.red * b.red, a.green * b.green, a.blue * b.blue⟩⟩

/-- Embedding of `Color::black()` (spec section 3: default emission is black). -/
def Color.black : Color := ⟨0, 0, 0⟩

/-- Embedding of `Color::white()` as used by `Material::with_texture`. -/
def Color.white : Color := ⟨255, 255, 255⟩

/-- A texture (src/texture.rs): an owned grid of samples with explicit
width and height; the decoded image is modelled as its pixel-lookup
function. -/
structure Texture where
  width : ℕ
  height : ℕ
  image : ℕ → ℕ → Color

/-- A material (src/material.rs). -/
structure Material where
  color : Color
  texture : Option Texture
  shininess : ℝ
  properties : Fin 4 → ℝ
  refractive_index : ℝ
  emission : Color

/-- Embedding of `Material::black()` (src/material.rs lines 27-36). -/
def Material.black : Material where
  color := ⟨0, 0, 0⟩
  shininess := 0
  properties := fun _ => 0
  refractive_index := 1
  texture := none
  emission := Color.black

/-- Modelled from the spec: `ray_intersect.rs` is not under `src/`.  Per
spec section 3, an intersection record is either "no hit" or carries the
hit point, surface normal, ray parameter (distance) and material; the
field names follow their uses in `main.rs`. -/
structure Intersect where
  isIntersecting : Bool
  point : Vec3
  normal : Vec3
  distance : ℝ
  material : Material

/-- Embedding of `Intersect::empty()`: the "no hit" record. -/
def Intersect.empty : Intersect :=
  ⟨false, ⟨0, 0, 0⟩, ⟨0, 0, 0⟩, 0, Material.black⟩

/-- Modelled from the spec: `cube.rs` is not under `src/`.  A primitive is
represented by its ray-intersection query (spec section 4.1 contract:
given a ray origin and direction, report no hit or the nearest hit record);
`main.rs` uses a `Cube` only through this query. -/
structure Cube where
  ray_intersect : Vec3 → Vec3 → Intersect

/-- The light (struct `SceneLight`, src/main.rs lines 35-40). -/
structure SceneLight where
  position : Vec3
  color : Color
  intensity : ℝ
  time : ℝ

/-- Modelled from the spec: `camera.rs` is not under `src/`.  Per spec
section 4.3 the camera carries eye, look-at target and up vector, and a
basis-change transform taking camera-space directions to world space; the
transform itself is kept abstract since the claims constrain only its
application. -/
structure Camera where
  eye : Vec3
  center : Vec3
  up : Vec3
  basis_change : Vec3 → Vec3

/-- Embedding of `ORIGIN_BIAS` (src/main.rs line 27). -/
def ORIGIN_BIAS : ℝ := 1e-4

/-- Embedding of `offset_origin` (src/main.rs lines 78-85). -/
def offset_origin (intersect : Intersect) (direction : Vec3) : Vec3 :=
  let offset := ORIGIN_BIAS • intersect.normal
  if direction.dot intersect.normal < 0 then
    intersect.point - offset
  else
    intersect.point + offset

/-- Embedding of `reflect` (src/main.rs lines 87-89). -/
def reflect (incident normal : Vec3) : Vec3 :=
  incident - (2 * incident.dot normal) • normal

/-- Embedding of `refract` (src/main.rs lines 91-116).  `powf` and `sqrt` on `f32`
become `Real.sqrt`; `.max(-1.0).min(1.0)` is the clamp of the cosine. -/
def refract (incident normal : Vec3) (eta_t : ℝ) : Vec3 :=
  let cosi := -(min (max (incident.dot normal) (-1)) 1)
  let branch : ℝ × ℝ × Vec3 :=
    if cosi < 0 then
      (-cosi, 1 / eta_t, -normal)
    else
      (cosi, eta_t, normal)
  let n_cosi := branch.1
  let eta := branch.2.1
  let n_normal := branch.2.2
  let k := 1 - eta * eta * (1 - n_cosi * n_cosi)
  if k < 0 then
    reflect incident n_normal
  else
    eta • incident + (eta * n_cosi - Real.sqrt k) • n_normal

/-- The shadow-ray direction of `cast_shadow` (src/main.rs line 123):
`(light.position - intersect.point).normalize()`. -/
def shadow_dir (intersect : Intersect) (light : SceneLight) : Vec3 :=
  (light.position - intersect.point).normalize

/-- The distance from the hit point to the light (src/main.rs line 124):
`(light.position - intersect.point).magnitude()`. -/
def light_distance (intersect : Intersect) (light : SceneLight) : ℝ :=
  (light.position - intersect.point).magnitude

/-- The epsilon-offset shadow-ray origin (src/main.rs line 126). -/
def shadow_origin (intersect : Intersect) (light : SceneLight) : Vec3 :=
  offset_origin intersect (shadow_dir intersect light)

/-- The intersection record an object reports for the shadow ray
(src/main.rs line 130). -/
def shadow_hit (intersect : Intersect) (light : SceneLight) (c : Cube) : Intersect :=
  c.ray_intersect (shadow_origin intersect light) (shadow_dir intersect light)

/-- The loop of `cast_shadow` (src/main.rs lines 129-136): scan the object
list; at the first object whose reported hit lies strictly closer than the
light, return `1 - min((distance/light_distance)^2, 1)` (the `break`);
if no object qualifies the accumulator stays `0.0`. -/
def shadow_scan (shadow_ray_origin light_dir : Vec3) (light_distance : ℝ) :
    List Cube → ℝ
  | [] => 0
  | object :: rest =>
    let shadow_intersect := object.ray_intersect shadow_ray_origin light_dir
    if shadow_intersect.isIntersecting = true ∧
        shadow_intersect.distance < light_distance then
      1 - min ((shadow_intersect.distance / light_distance) ^ (2 : ℝ)) 1
    else
      shadow_scan shadow_ray_origin light_dir light_distance rest

/-- Embedding of `cast_shadow` (src/main.rs lines 118-139); its local `let`s are the
definitions `shadow_dir`, `light_distance` and `shadow_origin` above. -/
def cast_shadow (intersect : Intersect) (light : SceneLight)
    (objects : List Cube) : ℝ :=
  shadow_scan (shadow_origin intersect light) (shadow_dir intersect light)
    (light_distance intersect light) objects

/-- A cube qualifies as a shadow occluder (the loop condition on
src/main.rs line 131). -/
def Qualifies (intersect : Intersect) (light : SceneLight) (c : Cube) : Prop :=
  (shadow_hit intersect light c).isIntersecting = true ∧
    (shadow_hit intersect light c).distance < light_distance intersect light

/-- The nearest-hit loop of `cast_ray` (src/main.rs lines 157-163): scan
the objects keeping the hit with the smallest distance seen so far;
`zbuffer` starts at `f32::INFINITY`, modelled as `⊤ : EReal`. -/
def nearest_scan (ray_origin ray_direction : Vec3) :
    List Cube → Intersect → EReal → Intersect
  | [], intersect, _ => intersect
  | object :: rest, intersect, zbuffer =>
    let i := object.ray_intersect ray_origin ray_direction
    if i.isIntersecting = true ∧ (i.distance : EReal) < zbuffer then
      nearest_scan ray_origin ray_direction rest i (i.distance : EReal)
    else
      nearest_scan ray_origin ray_direction rest intersect zbuffer

/-- The nearest hit over the scene (src/main.rs lines 154-163): run the
scan starting from `Intersect::empty()` and an infinite z-buffer. -/
def scene_intersect (ray_origin ray_direction : Vec3) (objects : List Cube) :
    Intersect :=
  nearest_scan ray_origin ray_direction objects Intersect.empty ⊤

/-- Rust `f32::trunc`: round toward zero. -/
def rustTrunc (a : ℝ) : ℝ := if 0 ≤ a then (⌊a⌋ : ℝ) else (⌈a⌉ : ℝ)

/-- Rust `a % 1.0` on floats (also `a.fract()`): `a` minus its truncation
toward zero; keeps the sign of `a`. -/
def remOne (a : ℝ) : ℝ := a - rustTrunc a

/-- Rust `as u32` on a float: truncate toward zero and saturate to
`[0, 2^32 - 1]`. -/
def castU32 (a : ℝ) : ℕ :=
  if a ≤ 0 then 0 else min ⌊a⌋.toNat (2 ^ 32 - 1)

/-- The horizontal pixel index of `Texture::get_color`
(src/texture.rs lines 22 and 26): `((u % 1.0) * width) as u32`, clamped to
`[0, width - 1]`. -/
def Texture.pixelX (t : Texture) (u : ℝ) : ℕ :=
  min (castU32 (remOne u * t.width)) (t.width - 1)

/-- The vertical pixel index of `Texture::get_color`
(src/texture.rs lines 23 and 27): `((1 - (v % 1.0)) * height) as u32`,
clamped to `[0, height - 1]`. -/
def Texture.pixelY (t : Texture) (v : ℝ) : ℕ :=
  min (castU32 ((1 - remOne v) * t.height)) (t.height - 1)

/-- Embedding of `Texture::get_color` (src/texture.rs lines 20-33): look the clamped
pixel indices up in the image. -/
def Texture.get_color (t : Texture) (u v : ℝ) : Color :=
  t.image (t.pixelX u) (t.pixelY v)

/-- Embedding of `calculate_uv` (src/main.rs lines 172-189): pick the dominant face by
the normal and take the fractional parts of the hit point coordinates. -/
def calculate_uv (intersect : Intersect) : ℝ × ℝ :=
  let normal := intersect.normal
  let point := intersect.point
  if |normal.y| > 0.99 then
    (remOne |point.x|, remOne |point.z|)
  else if |normal.x| > 0.99 then
    (remOne |point.z|, remOne |point.y|)
  else
    (remOne |point.x|, remOne |point.y|)

/-- Embedding of the local `material_color` of `cast_ray` (src/main.rs lines 192-199): sample the
texture at the fractional UV when the material has one, else the flat
material color. -/
def material_color (intersect : Intersect) : Color :=
  match intersect.material.texture with
  | some texture =>
    let uv := calculate_uv intersect
    let u := remOne uv.1
    let v := remOne uv.2
    texture.get_color u v
  | none => intersect.material.color

/-- The diffuse term of `cast_ray` (src/main.rs lines 217-218):
`Color::black() * properties[0] * diffuse_intensity * light_intensity`
where `diffuse_intensity = normal.dot(light_dir).max(0).min(1)`. -/
def diffuse_term (intersect : Intersect) (light_dir : Vec3)
    (light_intensity : ℝ) : Color :=
  let diffuse_intensity := min (max (intersect.normal.dot light_dir) 0) 1
  Color.black * intersect.material.properties 0 * diffuse_intensity *
    light_intensity

/-- The specular term of `cast_ray` (src/main.rs lines 220-221):
`light.color * properties[1] * specular_intensity * light_intensity` where
`specular_intensity = view_dir.dot(reflect_dir).max(0).powf(shininess)`. -/
def specular_term (intersect : Intersect) (light : SceneLight)
    (view_dir reflect_dir : Vec3) (light_intensity : ℝ) : Color :=
  let specular_intensity :=
    (max (view_dir.dot reflect_dir) 0) ^ intersect.material.shininess
  light.color * intersect.material.properties 1 * specular_intensity *
    light_intensity

/-- Embedding of `cast_ray` (src/main.rs lines 142-251).  The nearest-hit loop is
`scene_intersect`, the diffuse/specular lines are `diffuse_term` and
`specular_term`, and the recursion is well founded because both recursive
calls pass `depth + 1` under the guard `depth ≤ 3`. -/
def cast_ray (ray_origin ray_direction : Vec3) (objects : List Cube)
    (light : SceneLight) (depth : ℕ) (sky_color : Color) : Color :=
  if h : depth > 3 then
    sky_color
  else
    let intersect := scene_intersect ray_origin ray_direction objects
    if intersect.isIntersecting = false then
      sky_color
    else
      let emission := intersect.material.emission
      let mcolor := material_color intersect
      let light_dir := (light.position - intersect.point).normalize
      let view_dir := (ray_origin - intersect.point).normalize
      let reflect_dir := (reflect (-light_dir) intersect.normal).normalize
      let shadow_intensity := cast_shadow intersect light objects
      let light_intensity := light.intensity * (1 - shadow_intensity)
      let has_texture := intersect.material.texture.isSome
      let base_color :=
        if has_texture then
          mcolor + emission
        else
          diffuse_term intersect light_dir light_intensity +
            specular_term intersect light view_dir reflect_dir light_intensity +
            emission
      let reflectivity := intersect.material.properties 2
      let reflect_color :=
        if reflectivity > 0 then
          let rdir := (reflect ray_direction intersect.normal).normalize
          let reflect_origin := offset_origin intersect rdir
          cast_ray reflect_origin rdir objects light (depth + 1) sky_color
        else
          Color.black
      let transparency := intersect.material.properties 3
      let refract_color :=
        if transparency > 0 then
          let refract_dir :=
            refract ray_direction intersect.normal
              intersect.material.refractive_index
          let refract_origin := offset_origin intersect refract_dir
          cast_ray refract_origin refract_dir objects light (depth + 1)
            sky_color
        else
          Color.black
      if has_texture then
        base_color * (1 - reflectivity - transparency) +
          reflect_color * reflectivity + refract_color * transparency
      else
        base_color + reflect_color * reflectivity +
          refract_color * transparency
termination_by 4 - depth
decreasing_by
  all_goals omega

/-- The per-pixel computation of `render` (src/main.rs lines 271-291):
map the pixel to screen coordinates, scale by aspect and by
`tan(fov/2)` with `fov = π/3`, build the camera-space direction
`(screen_x, screen_y, -1)`, normalize, change basis, and trace from the
eye with depth 0. -/
def render_pixel (width height : ℕ) (camera : Camera) (objects : List Cube)
    (light : SceneLight) (sky_color : Color) (x y : ℕ) : Color :=
  let w : ℝ := width
  let h : ℝ := height
  let aspect := w / h
  let fov := Real.pi / 3
  let perspective_scale := Real.tan (fov * 0.5)
  let screen_x0 := (2 * (x : ℝ)) / w - 1
  let screen_y0 := -((2 * (y : ℝ)) / h) + 1
  let screen_x := screen_x0 * aspect * perspective_scale
  let screen_y := screen_y0 * perspective_scale
  let ray_direction := (Vec3.mk screen_x screen_y (-1)).normalize
  let rotated_direction := camera.basis_change ray_direction
  cast_ray camera.eye rotated_direction objects light 0 sky_color

/-- The refraction rule exactly as the specification words it (spec
section 4.4 / claim C2): the entering/exiting case is decided by the sign
of `incident·normal`; entering (negative dot, ray against the outward
normal) uses the normal as-is with `eta = 1/refractive_index`, exiting
flips the normal and uses `eta = refractive_index`; `k = 1 - eta²(1-cosI²)`;
if `k < 0` reflect about the flipped normal, else use the Snell vector form. -/
def refract_spec (incident normal : Vec3) (eta_t : ℝ) : Vec3 :=
  if incident.dot normal < 0 then
    let eta := 1 / eta_t
    let cosI := -(incident.dot normal)
    let k := 1 - eta * eta * (1 - cosI * cosI)
    if k < 0 then reflect incident (-normal)
    else eta • incident + (eta * cosI - Real.sqrt k) • normal
  else
    let eta := eta_t
    let cosI := incident.dot normal
    let k := 1 - eta * eta * (1 - cosI * cosI)
    if k < 0 then reflect incident (-normal)
    else eta • incident + (eta * cosI - Real.sqrt k) • (-normal)

/-- The refraction rule as the code actually has it, written from the
amended claim: when `incident·normal > 0` (the branch the code labels
"entering") the normal is flipped and `eta = 1/refractive_index`; when
`incident·normal ≤ 0` the normal is used as-is and
`eta = refractive_index`; the cosine is the clamped magnitude of the dot
product; on `k < 0` the incident direction is reflected about the selected
normal. -/
def refract_amended (incident normal : Vec3) (eta_t : ℝ) : Vec3 :=
  if 0 < incident.dot normal then
    let c := min (incident.dot normal) 1
    let eta := 1 / eta_t
    let k := 1 - eta * eta * (1 - c * c)
    if k < 0 then reflect incident (-normal)
    else eta • incident + (eta * c - Real.sqrt k) • (-normal)
  else
    let c := -(max (incident.dot normal) (-1))
    let eta := eta_t
    let k := 1 - eta * eta * (1 - c * c)
    if k < 0 then reflect incident normal
    else eta • incident + (eta * c - Real.sqrt k) • normal

/-- The diffuse term exactly as the specification words it (spec section
4.2 / claim C1): `material.diffuse_coeff * max(0, normal·light_dir) *
effective_light_intensity * material_or_texture_color`. -/
def diffuse_term_spec (intersect : Intersect) (light_dir : Vec3)
    (light_intensity : ℝ) : Color :=
  (intersect.material.properties 0 * max 0 (intersect.normal.dot light_dir) *
      light_intensity) • material_color intersect

/-- The final composition claimed for `cast_ray` (spec section 4.2 / claim
C4), written over the embedded pieces: textured materials blend
`(texture_color + emission)` by `1 - reflectivity - transparency`,
non-textured materials add `diffuse + specular + emission`, and both add
the recursive reflection and refraction contributions weighted by their
coefficients. -/
def composed_color (ray_origin ray_direction : Vec3) (objects : List Cube)
    (light : SceneLight) (depth : ℕ) (sky_color : Color) : Color :=
  let intersect := scene_intersect ray_origin ray_direction objects
  let light_dir := (light.position - intersect.point).normalize
  let view_dir := (ray_origin - intersect.point).normalize
  let reflect_dir := (reflect (-light_dir) intersect.normal).normalize
  let light_intensity :=
    light.intensity * (1 - cast_shadow intersect light objects)
  let reflectivity := intersect.material.properties 2
  let transparency := intersect.material.properties 3
  let reflect_color :=
    if reflectivity > 0 then
      let rdir := (reflect ray_direction intersect.normal).normalize
      cast_ray (offset_origin intersect rdir) rdir objects light (depth + 1)
        sky_color
    else
      Color.black
  let refract_color :=
    if transparency > 0 then
      let refract_dir :=
        refract ray_direction intersect.normal
          intersect.material.refractive_index
      cast_ray (offset_origin intersect refract_dir) refract_dir objects light
        (depth + 1) sky_color
    else
      Color.black
  if intersect.material.texture.isSome then
    (material_color intersect + intersect.material.emission) *
        (1 - reflectivity - transparency) +
      reflect_color * reflectivity + refract_color * transparency
  else
    (diffuse_term intersect light_dir light_intensity +
        specular_term intersect light view_dir reflect_dir light_intensity +
        intersect.material.emission) +
      reflect_color * reflectivity + refract_color * transparency

/-- The pixel color claimed for `render` (spec section 4.4 / claim C8):
trace from the eye, with depth 0, the basis-changed normalization of
`(ndc_x * aspect * tan(fov/2), ndc_y * tan(fov/2), -1)` where
`ndc_x = 2x/W - 1` and `ndc_y = 1 - 2y/H`. -/
def claimed_pixel_color (width height : ℕ) (camera : Camera)
    (objects : List Cube) (light : SceneLight) (sky_color : Color)
    (x y : ℕ) : Color :=
  cast_ray camera.eye
    (camera.basis_change
      ((Vec3.mk
          (((2 * (x : ℝ)) / width - 1) * ((width : ℝ) / height) *
            Real.tan (Real.pi / 6))
          ((1 - (2 * (y : ℝ)) / height) * Real.tan (Real.pi / 6))
          (-1)).normalize))
    objects light 0 sky_color

/-- A sample non-textured material (the `rock` material of src/main.rs
lines 363-368). -/
def sampleMaterial : Material where
  color := ⟨169, 169, 169⟩
  texture := none
  shininess := 100
  properties := ![0.6, 0.6, 0.6, 0]
  refractive_index := 0
  emission := Color.black

/-- A sample hit record used to instantiate theorems. -/
def sampleIntersect : Intersect where
  isIntersecting := true
  point := ⟨0, 0, 0⟩
  normal := ⟨0, 0, 1⟩
  distance := 2
  material := sampleMaterial

/-- A sample primitive reporting a hit at the given distance for every
query. -/
def cubeAt (d : ℝ) : Cube :=
  ⟨fun _ _ => { sampleIntersect with distance := d }⟩

/-- A sample primitive reporting no hit for every query. -/
def cubeMiss : Cube :=
  ⟨fun _ _ => Intersect.empty⟩

/-- A sample light 5 units above the sample hit point. -/
def sampleLight : SceneLight where
  position := ⟨0, 0, 5⟩
  color := ⟨255, 200, 100⟩
  intensity := 2
  time := 0

/-- A sample camera whose basis change is the identity. -/
def sampleCamera : Camera where
  eye := ⟨0, 0, 5.5⟩
  center := ⟨0, 0, 0⟩
  up := ⟨0, 1, 0⟩
  basis_change := fun v => v

/-- Embedding of `SKYBOX_COLOR` (src/main.rs line 28). -/
def SKYBOX_COLOR : Color := ⟨68, 142, 228⟩

@[simp]
lemma Vec3.add_def (a b : Vec3) :
    a + b = ⟨a.x + b.x, a.y + b.y, a.z + b.z⟩ := rfl

@[simp]
lemma Vec3.sub_def (a b : Vec3) :
    a - b = ⟨a.x - b.x, a.y - b.y, a.z - b.z⟩ := rfl

@[simp]
lemma Vec3.neg_def (a : Vec3) : -a = ⟨-a.x, -a.y, -a.z⟩ := rfl

@[simp]
lemma Vec3.smul_def (r : ℝ) (a : Vec3) :
    r • a = ⟨r * a.x, r * a.y, r * a.z⟩ := rfl

@[simp]
lemma Vec3.dot_def (a b : Vec3) :
    a.dot b = a.x * b.x + a.y * b.y + a.z * b.z := rfl

@[simp]
lemma Color.add_channels (a b : Color) :
    a + b = ⟨a.red + b.red, a.green + b.green, a.blue + b.blue⟩ := rfl

@[simp]
lemma Color.mul_real_def (c : Color) (s : ℝ) :
    c * s = ⟨c.red * s, c.green * s, c.blue * s⟩ := rfl

@[simp]
lemma Color.smul_channels (s : ℝ) (c : Color) :
    s • c = ⟨s * c.red, s * c.green, s * c.blue⟩ := rfl

@[simp]
lemma Color.mul_color_def (a b : Color) :
    a * b = ⟨a.red * b.red, a.green * b.green, a.blue * b.blue⟩ := rfl

/-- Evaluation of the sample light distance: the light sits 5 units from
the sample hit point. -/
lemma sample_light_distance : light_distance sampleIntersect sampleLight = 5 := by
  simp only [light_distance, Vec3.magnitude, sampleIntersect, sampleLight,
    Vec3.sub_def, Vec3.dot_def]
  norm_num
  rw [show (25 : ℝ) = 5 ^ 2 by norm_num, Real.sqrt_sq (by norm_num : (0 : ℝ) ≤ 5)]

/-- Claim C1: the claim says the diffuse contribution equals
`diffuse_coeff * max(0, normal·light_dir) * effective_light_intensity *
material_or_texture_color`; the code instead multiplies `Color::black()`
by those scalars (src/main.rs line 218), so the computed diffuse term is
identically black and in particular differs from the claimed formula at
the sample input (rock-like material, normal and light direction both
`(0,0,1)`, effective light intensity 2). -/
theorem C1_diffuse_code_bug :
    (∀ (intersect : Intersect) (light_dir : Vec3) (light_intensity : ℝ),
        diffuse_term intersect light_dir light_intensity = Color.black)
    ∧ diffuse_term_spec sampleIntersect ⟨0, 0, 1⟩ 2 =
        ⟨0.6 * 1 * 2 * 169, 0.6 * 1 * 2 * 169, 0.6 * 1 * 2 * 169⟩
    ∧ diffuse_term sampleIntersect ⟨0, 0, 1⟩ 2 ≠
        diffuse_term_spec sampleIntersect ⟨0, 0, 1⟩ 2 := by
  have hblack : ∀ (intersect : Intersect) (light_dir : Vec3)
      (light_intensity : ℝ),
      diffuse_term intersect light_dir light_intensity = Color.black := by
    intro i ld li
    simp only [diffuse_term, Color.black, Color.mul_real_def]
    norm_num
  have hspec : diffuse_term_spec sampleIntersect ⟨0, 0, 1⟩ 2 =
      ⟨0.6 * 1 * 2 * 169, 0.6 * 1 * 2 * 169, 0.6 * 1 * 2 * 169⟩ := by
    simp only [diffuse_term_spec, material_color, sampleIntersect,
      sampleMaterial, Vec3.dot_def, Color.smul_channels]
    norm_num
  refine ⟨hblack, hspec, ?_⟩
  rw [hblack, hspec]
  intro h
  have := congrArg Color.red h
  simp only [Color.black] at this
  norm_num at this

/-- Claim C3: whenever the depth argument exceeds 3, `cast_ray` returns
the sky color immediately, for every scene, origin and direction
(src/main.rs lines 150-152); together with the fact that both recursive
calls pass `depth + 1` this makes the recursion well founded, which is
what lets the Lean embedding be accepted as a total function. -/
theorem C3_depth_cutoff (ray_origin ray_direction : Vec3)
    (objects : List Cube) (light : SceneLight) (depth : ℕ)
    (sky_color : Color) (h : depth > 3) :
    cast_ray ray_origin ray_direction objects light depth sky_color =
      sky_color := by
  rw [cast_ray]
  exact dif_pos h

/-- Witness for C3: a depth-4 call on a concrete mirrored-style scene
returns the sky color. -/
theorem C3_depth_cutoff_witness :
    (4 > 3)
    ∧ cast_ray ⟨0, 0, 0⟩ ⟨0, 0, -1⟩ [cubeAt 2, cubeAt 3] sampleLight 4
        SKYBOX_COLOR = SKYBOX_COLOR :=
  ⟨by norm_num,
    C3_depth_cutoff ⟨0, 0, 0⟩ ⟨0, 0, -1⟩ [cubeAt 2, cubeAt 3] sampleLight 4
      SKYBOX_COLOR (by norm_num)⟩

/-- Counterexample to claim C2: at incident direction `(3/5, 0, -4/5)`,
outward normal `(0, 0, 1)` (so `incident·normal = -4/5 < 0`, an entering
ray) and refractive index 2, the code takes the branch that keeps the
normal as-is but uses `eta = refractive_index` (not `1/refractive_index`
as claimed), hits total internal reflection and returns the reflection
`(3/5, 0, 4/5)`, while the claimed rule refracts with `eta = 1/2` and
returns a vector with x-component `3/10`. -/
theorem C2_counterexample :
    refract ⟨3 / 5, 0, -4 / 5⟩ ⟨0, 0, 1⟩ 2 ≠
      refract_spec ⟨3 / 5, 0, -4 / 5⟩ ⟨0, 0, 1⟩ 2 := by
  have hcode : (refract ⟨3 / 5, 0, -4 / 5⟩ ⟨0, 0, 1⟩ 2).x = 3 / 5 := by
    simp only [refract, reflect, Vec3.dot_def, Vec3.neg_def, Vec3.smul_def,
      Vec3.sub_def, Vec3.add_def]
    norm_num [min_def, max_def]
  have hspec : (refract_spec ⟨3 / 5, 0, -4 / 5⟩ ⟨0, 0, 1⟩ 2).x = 3 / 10 := by
    simp only [refract_spec, reflect, Vec3.dot_def, Vec3.neg_def,
      Vec3.smul_def, Vec3.sub_def, Vec3.add_def]
    norm_num [min_def, max_def]
  intro h
  rw [h, hspec] at hcode
  norm_num at hcode

/-- Claim C2 amended: the function `refract` in the code decides the case split on the
sign of `incident·normal` through the clamped cosine, but with the
opposite pairing from the one claimed: a positive dot product (the branch
the code labels "entering") flips the normal and uses
`eta = 1/refractive_index`, a nonpositive dot product keeps the normal
as-is and uses `eta = refractive_index`; when `k = 1 - eta²(1 - cosI²)` is
negative the result is the reflection of the incident direction about the
normal selected by that branch. -/
theorem C2_refract_amended (incident normal : Vec3) (eta_t : ℝ) :
    refract incident normal eta_t = refract_amended incident normal eta_t := by
  simp only [refract, refract_amended]
  rcases lt_or_le 0 (incident.dot normal) with hd | hd
  · have hclamp : min (max (incident.dot normal) (-1)) 1 =
        min (incident.dot normal) 1 := by
      rw [max_eq_left (by linarith : (-1 : ℝ) ≤ incident.dot normal)]
    have hpos : 0 < min (incident.dot normal) 1 := lt_min hd one_pos
    have hcosi : -(min (incident.dot normal) 1) < 0 := neg_lt_zero.mpr hpos
    rw [hclamp, if_pos hcosi, if_pos hd]
    simp only [neg_neg]
  · have hmax : max (incident.dot normal) (-1) ≤ 0 :=
      max_le hd (by norm_num)
    have hclamp : min (max (incident.dot normal) (-1)) 1 =
        max (incident.dot normal) (-1) :=
      min_eq_left (le_trans hmax zero_le_one)
    have hcosi : ¬(-(min (max (incident.dot normal) (-1)) 1) < 0) := by
      rw [hclamp]; linarith
    rw [if_neg hcosi, if_neg (not_lt.mpr hd)]
    rw [hclamp]

/-- Rust `powf(2.0)` is squaring. -/
lemma rpow_two_eq_mul_self (x : ℝ) : x ^ (2 : ℝ) = x * x := by
  rw [show (2 : ℝ) = ((2 : ℕ) : ℝ) by norm_num, Real.rpow_natCast]
  ring

/-- The shadow scan never qualifies any object: the accumulator stays 0. -/
lemma shadow_scan_zero (o ld : Vec3) (D : ℝ) (objects : List Cube)
    (h : ∀ c ∈ objects,
      ¬((c.ray_intersect o ld).isIntersecting = true ∧
        (c.ray_intersect o ld).distance < D)) :
    shadow_scan o ld D objects = 0 := by
  induction objects with
  | nil => rfl
  | cons c rest ih =>
    simp only [shadow_scan]
    rw [if_neg (h c (List.mem_cons_self c rest))]
    exact ih fun c2 hc2 => h c2 (List.mem_cons_of_mem c hc2)

/-- The shadow scan stops at the first qualifying object in list order. -/
lemma shadow_scan_first (o ld : Vec3) (D : ℝ) (pre post : List Cube)
    (c : Cube)
    (hpre : ∀ c2 ∈ pre,
      ¬((c2.ray_intersect o ld).isIntersecting = true ∧
        (c2.ray_intersect o ld).distance < D))
    (hc : (c.ray_intersect o ld).isIntersecting = true ∧
      (c.ray_intersect o ld).distance < D) :
    shadow_scan o ld D (pre ++ c :: post) =
      1 - min (((c.ray_intersect o ld).distance / D) ^ (2 : ℝ)) 1 := by
  induction pre with
  | nil =>
    simp only [List.nil_append, shadow_scan]
    rw [if_pos hc]
  | cons p rest ih =>
    simp only [List.cons_append, shadow_scan]
    rw [if_neg (hpre p (List.mem_cons_self p rest))]
    exact ih fun c2 hc2 => hpre c2 (List.mem_cons_of_mem p hc2)

/-- The shadow scan always lands in the unit interval. -/
lemma shadow_scan_bounds (o ld : Vec3) (D : ℝ) (objects : List Cube) :
    0 ≤ shadow_scan o ld D objects ∧ shadow_scan o ld D objects ≤ 1 := by
  induction objects with
  | nil => exact ⟨le_refl 0, zero_le_one⟩
  | cons c rest ih =>
    simp only [shadow_scan]
    split_ifs with h
    · rw [rpow_two_eq_mul_self]
      have hle := min_le_right
        (((c.ray_intersect o ld).distance / D) *
          ((c.ray_intersect o ld).distance / D)) 1
      have hge := le_min
        (mul_self_nonneg ((c.ray_intersect o ld).distance / D)) zero_le_one
      constructor <;> linarith
    · exact ih

/-- A single qualifying occluder at distance `d` gives shadow intensity
`1 - (d / light_distance)^2`. -/
lemma cast_shadow_singleton (intersect : Intersect) (light : SceneLight)
    (c : Cube) (d : ℝ)
    (hi : (shadow_hit intersect light c).isIntersecting = true)
    (hd : (shadow_hit intersect light c).distance = d)
    (h0 : 0 ≤ d) (hD : d < light_distance intersect light) :
    cast_shadow intersect light [c] =
      1 - (d / light_distance intersect light) ^ (2 : ℝ) := by
  have hDpos : 0 < light_distance intersect light := lt_of_le_of_lt h0 hD
  simp only [cast_shadow, shadow_scan]
  rw [if_pos ⟨hi, hd ▸ hD⟩]
  have hhit : (shadow_hit intersect light c).distance = d := hd
  rw [show (c.ray_intersect (shadow_origin intersect light)
      (shadow_dir intersect light)).distance = d from hhit]
  rw [min_eq_left]
  rw [rpow_two_eq_mul_self]
  have hle : d / light_distance intersect light ≤ 1 :=
    (div_le_one hDpos).mpr hD.le
  have hnn : 0 ≤ d / light_distance intersect light :=
    div_nonneg h0 hDpos.le
  exact mul_le_one₀ hle hnn hle

/-- Claim C5: `cast_shadow` returns 0 when no object qualifies, and
otherwise returns `1 - min(1, (occluder_distance / light_distance)^2)`
computed from the first qualifying occluder in list order (the scan breaks
there, src/main.rs lines 129-136). -/
theorem C5_soft_shadow_first_occluder (intersect : Intersect)
    (light : SceneLight) :
    (∀ objects : List Cube,
      (∀ c ∈ objects, ¬ Qualifies intersect light c) →
      cast_shadow intersect light objects = 0)
    ∧ ∀ (pre post : List Cube) (c : Cube),
        (∀ c2 ∈ pre, ¬ Qualifies intersect light c2) →
        Qualifies intersect light c →
        cast_shadow intersect light (pre ++ c :: post) =
          1 - min (((shadow_hit intersect light c).distance /
              light_distance intersect light) ^ (2 : ℝ)) 1 := by
  constructor
  · intro objects h
    exact shadow_scan_zero _ _ _ objects h
  · intro pre post c hpre hc
    exact shadow_scan_first _ _ _ pre post c hpre hc

/-- Witness for C5: with the sample hit and light (light distance 5), an
empty scene gives shadow 0, and a single occluder at distance 3 gives the
claimed soft-shadow value. -/
theorem C5_witness :
    cast_shadow sampleIntersect sampleLight [] = 0
    ∧ cast_shadow sampleIntersect sampleLight ([] ++ cubeAt 3 :: []) =
        1 - min (((shadow_hit sampleIntersect sampleLight (cubeAt 3)).distance /
            light_distance sampleIntersect sampleLight) ^ (2 : ℝ)) 1 :=
  ⟨(C5_soft_shadow_first_occluder sampleIntersect sampleLight).1 []
      (by intro c hc; exact absurd hc (List.not_mem_nil c)),
    (C5_soft_shadow_first_occluder sampleIntersect sampleLight).2 [] []
      (cubeAt 3)
      (by intro c hc; exact absurd hc (List.not_mem_nil c))
      (by
        refine ⟨rfl, ?_⟩
        rw [show (shadow_hit sampleIntersect sampleLight (cubeAt 3)).distance = 3
            from rfl, sample_light_distance]
        norm_num)⟩

/-- Claim C7: shadow intensity is 0 with no qualifying occluder between
the point and the light, and for a single occluder (light distance fixed)
it strictly increases as the occluder distance decreases. -/
theorem C7_shadow_zero_and_monotone (intersect : Intersect)
    (light : SceneLight) :
    (∀ objects : List Cube,
      (∀ c ∈ objects, ¬ Qualifies intersect light c) →
      cast_shadow intersect light objects = 0)
    ∧ ∀ (c1 c2 : Cube) (d1 d2 : ℝ),
        (shadow_hit intersect light c1).isIntersecting = true →
        (shadow_hit intersect light c1).distance = d1 →
        (shadow_hit intersect light c2).isIntersecting = true →
        (shadow_hit intersect light c2).distance = d2 →
        0 ≤ d1 → d1 < d2 → d2 < light_distance intersect light →
        cast_shadow intersect light [c2] <
          cast_shadow intersect light [c1] := by
  constructor
  · intro objects h
    exact shadow_scan_zero _ _ _ objects h
  · intro c1 c2 d1 d2 h1i h1d h2i h2d hd1 hlt hD
    have hDpos : 0 < light_distance intersect light :=
      lt_of_le_of_lt (le_trans hd1 hlt.le) hD
    rw [cast_shadow_singleton intersect light c1 d1 h1i h1d hd1
        (lt_trans hlt hD),
      cast_shadow_singleton intersect light c2 d2 h2i h2d
        (le_trans hd1 hlt.le) hD]
    rw [rpow_two_eq_mul_self, rpow_two_eq_mul_self]
    have hmul := mul_self_lt_mul_self (div_nonneg hd1 hDpos.le)
      ((div_lt_div_iff_of_pos_right hDpos).mpr hlt)
    linarith

/-- Witness for C7: sample hit and light (light distance 5): empty scene
gives 0; occluders at distances 2 and 1 give a strictly larger shadow for
the closer one. -/
theorem C7_witness :
    cast_shadow sampleIntersect sampleLight [] = 0
    ∧ cast_shadow sampleIntersect sampleLight [cubeAt 2] <
        cast_shadow sampleIntersect sampleLight [cubeAt 1] :=
  ⟨(C7_shadow_zero_and_monotone sampleIntersect sampleLight).1 []
      (by intro c hc; exact absurd hc (List.not_mem_nil c)),
    (C7_shadow_zero_and_monotone sampleIntersect sampleLight).2
      (cubeAt 1) (cubeAt 2) 1 2 rfl rfl rfl rfl (by norm_num) (by norm_num)
      (by rw [sample_light_distance]; norm_num)⟩

/-- Claim C10: for nonnegative reported occluder distances the shadow
intensity lies in `[0, 1]`, and hence the effective light intensity
`light.intensity * (1 - shadow_intensity)` (src/main.rs line 207) lies
between 0 and `light.intensity`. -/
theorem C10_shadow_unit_interval (intersect : Intersect) (light : SceneLight)
    (objects : List Cube)
    (hd : ∀ c ∈ objects, 0 ≤ (shadow_hit intersect light c).distance) :
    (0 ≤ cast_shadow intersect light objects
      ∧ cast_shadow intersect light objects ≤ 1)
    ∧ (0 ≤ light.intensity →
        0 ≤ light.intensity * (1 - cast_shadow intersect light objects)
        ∧ light.intensity * (1 - cast_shadow intersect light objects) ≤
            light.intensity) := by
  have hb : 0 ≤ cast_shadow intersect light objects
      ∧ cast_shadow intersect light objects ≤ 1 :=
    shadow_scan_bounds (shadow_origin intersect light)
      (shadow_dir intersect light) (light_distance intersect light) objects
  refine ⟨hb, fun hI => ⟨?_, ?_⟩⟩
  · exact mul_nonneg hI (by linarith [hb.2])
  · calc light.intensity * (1 - cast_shadow intersect light objects) ≤
        light.intensity * 1 := by
          apply mul_le_mul_of_nonneg_left (by linarith [hb.1]) hI
    _ = light.intensity := mul_one _

/-- Witness for C10: an occluder reported at distance 3 under the sample
light of intensity 2. -/
theorem C10_witness :
    (0 ≤ cast_shadow sampleIntersect sampleLight [cubeAt 3]
      ∧ cast_shadow sampleIntersect sampleLight [cubeAt 3] ≤ 1)
    ∧ (0 ≤ sampleLight.intensity *
          (1 - cast_shadow sampleIntersect sampleLight [cubeAt 3])
      ∧ sampleLight.intensity *
          (1 - cast_shadow sampleIntersect sampleLight [cubeAt 3]) ≤
            sampleLight.intensity) := by
  have h := C10_shadow_unit_interval sampleIntersect sampleLight [cubeAt 3]
    (by
      intro c hc
      rw [List.mem_singleton] at hc
      subst hc
      show (0 : ℝ) ≤ 3
      norm_num)
  exact ⟨h.1, h.2 (by show (0 : ℝ) ≤ 2; norm_num)⟩

/-- If no object reports a hit the nearest-hit scan returns its
accumulator unchanged. -/
lemma nearest_scan_all_miss (o d : Vec3) (objects : List Cube)
    (acc : Intersect) (zb : EReal)
    (h : ∀ c ∈ objects, (c.ray_intersect o d).isIntersecting = false) :
    nearest_scan o d objects acc zb = acc := by
  induction objects generalizing acc zb with
  | nil => rfl
  | cons c rest ih =>
    simp only [nearest_scan]
    rw [if_neg]
    · exact ih _ _ fun c2 hc2 => h c2 (List.mem_cons_of_mem c hc2)
    · intro hcond
      have := h c (List.mem_cons_self c rest)
      rw [hcond.1] at this
      exact absurd this (by simp)

/-- Invariant of the nearest-hit scan: starting from an accumulator whose
distance equals the z-buffer (or the empty record with an infinite
z-buffer), the scan result either is the accumulator or is one of the
reported hits, its distance never exceeds the z-buffer nor any reported
hit distance, and a non-intersecting result means nothing was hit. -/
lemma nearest_scan_spec (o d : Vec3) (objects : List Cube) :
    ∀ (acc : Intersect) (zb : EReal),
      (acc.isIntersecting = false → zb = ⊤) →
      (acc.isIntersecting = true → (acc.distance : EReal) = zb) →
      ((nearest_scan o d objects acc zb).isIntersecting = true →
        ((nearest_scan o d objects acc zb).distance : EReal) ≤ zb
        ∧ (∀ c ∈ objects,
            (c.ray_intersect o d).isIntersecting = true →
            ((nearest_scan o d objects acc zb).distance : EReal) ≤
              ((c.ray_intersect o d).distance : EReal))
        ∧ (nearest_scan o d objects acc zb = acc ∨
            ∃ c ∈ objects,
              nearest_scan o d objects acc zb = c.ray_intersect o d))
      ∧ ((nearest_scan o d objects acc zb).isIntersecting = false →
          nearest_scan o d objects acc zb = acc
          ∧ ∀ c ∈ objects,
              (c.ray_intersect o d).isIntersecting = false) := by
  induction objects with
  | nil =>
    intro acc zb h1 h2
    constructor
    · intro hi
      exact ⟨le_of_eq (h2 hi), fun c hc => absurd hc (List.not_mem_nil c),
        Or.inl rfl⟩
    · intro _
      exact ⟨rfl, fun c hc => absurd hc (List.not_mem_nil c)⟩
  | cons c rest ih =>
    intro acc zb h1 h2
    simp only [nearest_scan]
    split_ifs with hcond
    · obtain ⟨hci, hcd⟩ := hcond
      have hrec := ih (c.ray_intersect o d)
        ((c.ray_intersect o d).distance : EReal)
        (fun hf => by rw [hci] at hf; exact absurd hf (by simp))
        (fun _ => rfl)
      constructor
      · intro hi
        obtain ⟨hdist, hall, hmem⟩ := hrec.1 hi
        refine ⟨le_trans hdist (le_of_lt hcd), ?_, ?_⟩
        · intro c2 hc2 hc2i
          rcases List.mem_cons.mp hc2 with rfl | hc2
          · exact hdist
          · exact hall c2 hc2 hc2i
        · rcases hmem with hmem | ⟨c2, hc2, hmem⟩
          · exact Or.inr ⟨c, List.mem_cons_self c rest, hmem⟩
          · exact Or.inr ⟨c2, List.mem_cons_of_mem c hc2, hmem⟩
      · intro hf
        obtain ⟨hracc, _⟩ := hrec.2 hf
        rw [hracc, hci] at hf
        exact absurd hf (by simp)
    · have hrec := ih acc zb h1 h2
      constructor
      · intro hi
        obtain ⟨hdist, hall, hmem⟩ := hrec.1 hi
        refine ⟨hdist, ?_, ?_⟩
        · intro c2 hc2 hc2i
          rcases List.mem_cons.mp hc2 with rfl | hc2
          · have hge : zb ≤ ((c2.ray_intersect o d).distance : EReal) := by
              by_contra hltc
              exact hcond ⟨hc2i, lt_of_not_le hltc⟩
            exact le_trans hdist hge
          · exact hall c2 hc2 hc2i
        · rcases hmem with hmem | ⟨c2, hc2, hmem⟩
          · exact Or.inl hmem
          · exact Or.inr ⟨c2, List.mem_cons_of_mem c hc2, hmem⟩
      · intro hf
        obtain ⟨hracc, hrest⟩ := hrec.2 hf
        have haccf : acc.isIntersecting = false := by rw [← hracc]; exact hf
        have hzb : zb = ⊤ := h1 haccf
        refine ⟨hracc, ?_⟩
        intro c2 hc2
        rcases List.mem_cons.mp hc2 with rfl | hc2
        · by_contra hci
          have hci2 : (c2.ray_intersect o d).isIntersecting = true := by
            revert hci
            cases (c2.ray_intersect o d).isIntersecting <;> simp
          exact hcond ⟨hci2, by rw [hzb]; exact EReal.coe_lt_top _⟩
        · exact hrest c2 hc2

/-- The function `cast_ray` falls through to the sky color when the scan finds no
hit. -/
lemma cast_ray_no_hit (ray_origin ray_direction : Vec3)
    (objects : List Cube) (light : SceneLight) (depth : ℕ)
    (sky_color : Color)
    (hmiss : (scene_intersect ray_origin ray_direction objects).isIntersecting
      = false) :
    cast_ray ray_origin ray_direction objects light depth sky_color =
      sky_color := by
  rw [cast_ray]
  by_cases h : depth > 3
  · rw [dif_pos h]
  · rw [dif_neg h]
    simp [hmiss]

/-- Claim C6: `cast_ray` scans all primitives linearly keeping the hit
with the smallest reported parameter; when all reported parameters are
positive (the spec section 4.1 contract of the missing `cube.rs`) the kept
hit is the one with the smallest positive parameter, and when no primitive
is hit the sky color is returned. -/
theorem C6_nearest_hit (ray_origin ray_direction : Vec3)
    (objects : List Cube) (light : SceneLight) (depth : ℕ)
    (sky_color : Color) (hdepth : depth ≤ 3)
    (hpos : ∀ c ∈ objects,
      (c.ray_intersect ray_origin ray_direction).isIntersecting = true →
      0 < (c.ray_intersect ray_origin ray_direction).distance) :
    ((∀ c ∈ objects,
        (c.ray_intersect ray_origin ray_direction).isIntersecting = false) →
      cast_ray ray_origin ray_direction objects light depth sky_color =
        sky_color)
    ∧ ((∃ c ∈ objects,
          (c.ray_intersect ray_origin ray_direction).isIntersecting = true) →
        (scene_intersect ray_origin ray_direction objects).isIntersecting =
          true)
    ∧ ((scene_intersect ray_origin ray_direction objects).isIntersecting =
          true →
        0 < (scene_intersect ray_origin ray_direction objects).distance
        ∧ (∃ c ∈ objects,
            scene_intersect ray_origin ray_direction objects =
              c.ray_intersect ray_origin ray_direction)
        ∧ ∀ c ∈ objects,
            (c.ray_intersect ray_origin ray_direction).isIntersecting =
              true →
            (scene_intersect ray_origin ray_direction objects).distance ≤
              (c.ray_intersect ray_origin ray_direction).distance) := by
  have hspec := nearest_scan_spec ray_origin ray_direction objects
    Intersect.empty ⊤ (fun _ => rfl)
    (fun h => absurd h (by simp [Intersect.empty]))
  refine ⟨?_, ?_, ?_⟩
  · intro hmiss
    apply cast_ray_no_hit
    show (nearest_scan ray_origin ray_direction objects Intersect.empty
      ⊤).isIntersecting = false
    rw [nearest_scan_all_miss ray_origin ray_direction objects
      Intersect.empty ⊤ hmiss]
    rfl
  · rintro ⟨c, hc, hci⟩
    by_contra hni
    have hf : (scene_intersect ray_origin ray_direction
        objects).isIntersecting = false := by
      revert hni
      cases (scene_intersect ray_origin ray_direction objects).isIntersecting
        <;> simp
    obtain ⟨_, hall⟩ := hspec.2 hf
    rw [hall c hc] at hci
    exact absurd hci (by simp)
  · intro hi
    unfold scene_intersect at hi ⊢
    obtain ⟨_, hall, hmem⟩ := hspec.1 hi
    rcases hmem with hmem | ⟨c, hc, hmem⟩
    · rw [hmem] at hi
      exact absurd hi (by simp [Intersect.empty])
    · refine ⟨?_, ⟨c, hc, hmem⟩, ?_⟩
      · rw [hmem]
        apply hpos c hc
        rw [← hmem]
        exact hi
      · intro c2 hc2 hc2i
        have := hall c2 hc2 hc2i
        exact_mod_cast this

/-- Witness for C6: a two-object scene whose second object is closer; the
near hit (distance 2) is selected over the far one (distance 3), and an
all-miss scene returns the sky color. -/
theorem C6_witness :
    cast_ray ⟨0, 0, 0⟩ ⟨0, 0, -1⟩ [cubeMiss] sampleLight 0 SKYBOX_COLOR =
      SKYBOX_COLOR :=
  (C6_nearest_hit ⟨0, 0, 0⟩ ⟨0, 0, -1⟩ [cubeMiss] sampleLight 0 SKYBOX_COLOR
      (by norm_num)
      (by
        intro c hc hci
        rw [List.mem_singleton] at hc
        subst hc
        exact absurd hci (by simp [cubeMiss, Intersect.empty]))).1
    (by
      intro c hc
      rw [List.mem_singleton] at hc
      subst hc
      rfl)

/-- Claim C4: on a hit within the depth bound, the color `cast_ray`
returns is exactly the claimed composition: for textured materials
`(texture_color + emission) * (1 - reflectivity - transparency)` plus the
weighted recursive contributions, with the diffuse/specular computation
skipped; for non-textured materials `(diffuse + specular + emission)` plus
the weighted recursive contributions (src/main.rs lines 209-249). -/
theorem C4_final_composition (ray_origin ray_direction : Vec3)
    (objects : List Cube) (light : SceneLight) (depth : ℕ)
    (sky_color : Color) (hdepth : depth ≤ 3)
    (hhit : (scene_intersect ray_origin ray_direction objects).isIntersecting
      = true) :
    cast_ray ray_origin ray_direction objects light depth sky_color =
      composed_color ray_origin ray_direction objects light depth
        sky_color := by
  have hnd : ¬depth > 3 := by omega
  rw [cast_ray, dif_neg hnd]
  by_cases htex :
    (scene_intersect ray_origin ray_direction objects).material.texture.isSome
      = true
  · simp [composed_color, hhit, htex]
  · simp [composed_color, hhit, htex]

/-- Witness for C4: a depth-0 trace against a single-object scene whose
object always reports a hit at distance 2. -/
theorem C4_witness :
    cast_ray ⟨0, 0, 0⟩ ⟨0, 0, -1⟩ [cubeAt 2] sampleLight 0 SKYBOX_COLOR =
      composed_color ⟨0, 0, 0⟩ ⟨0, 0, -1⟩ [cubeAt 2] sampleLight 0
        SKYBOX_COLOR :=
  C4_final_composition ⟨0, 0, 0⟩ ⟨0, 0, -1⟩ [cubeAt 2] sampleLight 0
    SKYBOX_COLOR (by norm_num)
    (by simp [scene_intersect, nearest_scan, cubeAt, sampleIntersect,
      EReal.coe_lt_top])

/-- Claim C8: every pixel of the W×H framebuffer maps to normalized
device coordinates in `[-1,1]×[-1,1]` with row 0 at the top, the
coordinates are scaled by `aspect * tan(fov/2)` resp. `tan(fov/2)` with
`fov = π/3`, and the traced ray is the basis-changed normalization of
`(ndc_x, ndc_y, -1)` cast from the eye with depth 0
(src/main.rs lines 254-292). -/
theorem C8_pixel_mapping (width height : ℕ) (camera : Camera)
    (objects : List Cube) (light : SceneLight) (sky_color : Color)
    (x y : ℕ) (hx : x < width) (hy : y < height) :
    (-1 ≤ (2 * (x : ℝ)) / (width : ℝ) - 1
      ∧ (2 * (x : ℝ)) / (width : ℝ) - 1 ≤ 1)
    ∧ (-1 ≤ 1 - (2 * (y : ℝ)) / (height : ℝ)
      ∧ 1 - (2 * (y : ℝ)) / (height : ℝ) ≤ 1)
    ∧ (y = 0 → 1 - (2 * (y : ℝ)) / (height : ℝ) = 1)
    ∧ render_pixel width height camera objects light sky_color x y =
        claimed_pixel_color width height camera objects light sky_color
          x y := by
  have hw : (0 : ℝ) < (width : ℝ) := by
    exact_mod_cast Nat.lt_of_le_of_lt (Nat.zero_le x) hx
  have hh : (0 : ℝ) < (height : ℝ) := by
    exact_mod_cast Nat.lt_of_le_of_lt (Nat.zero_le y) hy
  have hxw : (x : ℝ) < (width : ℝ) := by exact_mod_cast hx
  have hyh : (y : ℝ) < (height : ℝ) := by exact_mod_cast hy
  refine ⟨⟨?_, ?_⟩, ⟨?_, ?_⟩, ?_, ?_⟩
  · have h0 : 0 ≤ (2 * (x : ℝ)) / (width : ℝ) :=
      div_nonneg (by positivity) hw.le
    linarith
  · have h2 : (2 * (x : ℝ)) / (width : ℝ) ≤ 2 := by
      rw [div_le_iff₀ hw]; linarith
    linarith
  · have h2 : (2 * (y : ℝ)) / (height : ℝ) ≤ 2 := by
      rw [div_le_iff₀ hh]; linarith
    linarith
  · have h0 : 0 ≤ (2 * (y : ℝ)) / (height : ℝ) :=
      div_nonneg (by positivity) hh.le
    linarith
  · intro hy0
    subst hy0
    simp
  · simp only [render_pixel, claimed_pixel_color]
    have htan : Real.pi / 3 * 0.5 = Real.pi / 6 := by ring
    have harg : -((2 * (y : ℝ)) / (height : ℝ)) + 1 =
        1 - (2 * (y : ℝ)) / (height : ℝ) := by ring
    rw [htan, harg]

/-- Witness for C8: pixel (0,0) of a 2×2 framebuffer with the sample
camera. -/
theorem C8_witness :
    (-1 ≤ (2 * ((0 : ℕ) : ℝ)) / ((2 : ℕ) : ℝ) - 1
      ∧ (2 * ((0 : ℕ) : ℝ)) / ((2 : ℕ) : ℝ) - 1 ≤ 1)
    ∧ (-1 ≤ 1 - (2 * ((0 : ℕ) : ℝ)) / ((2 : ℕ) : ℝ)
      ∧ 1 - (2 * ((0 : ℕ) : ℝ)) / ((2 : ℕ) : ℝ) ≤ 1)
    ∧ ((0 : ℕ) = 0 → 1 - (2 * ((0 : ℕ) : ℝ)) / ((2 : ℕ) : ℝ) = 1)
    ∧ render_pixel 2 2 sampleCamera [] sampleLight SKYBOX_COLOR 0 0 =
        claimed_pixel_color 2 2 sampleCamera [] sampleLight SKYBOX_COLOR
          0 0 :=
  C8_pixel_mapping 2 2 sampleCamera [] sampleLight SKYBOX_COLOR 0 0
    (by norm_num) (by norm_num)

/-- Claim C9: for a texture of positive width and height and any real u,
v, `Texture::get_color` samples at pixel indices clamped to
`[0, width-1] × [0, height-1]`, so the image access is always in bounds
(src/texture.rs lines 20-33). -/
theorem C9_texture_lookup_in_bounds (t : Texture) (u v : ℝ)
    (hw : 1 ≤ t.width) (hh : 1 ≤ t.height) :
    t.pixelX u < t.width ∧ t.pixelY v < t.height
    ∧ t.get_color u v = t.image (t.pixelX u) (t.pixelY v) := by
  refine ⟨?_, ?_, rfl⟩
  · exact lt_of_le_of_lt (min_le_right _ _) (Nat.sub_lt hw Nat.one_pos)
  · exact lt_of_le_of_lt (min_le_right _ _) (Nat.sub_lt hh Nat.one_pos)

/-- A sample 4×4 texture. -/
def sampleTexture : Texture := ⟨4, 4, fun _ _ => Color.black⟩

/-- Witness for C9: the sample texture sampled at (0.5, 0.3). -/
theorem C9_witness :
    sampleTexture.pixelX 0.5 < sampleTexture.width
    ∧ sampleTexture.pixelY 0.3 < sampleTexture.height
    ∧ sampleTexture.get_color 0.5 0.3 =
        sampleTexture.image (sampleTexture.pixelX 0.5)
          (sampleTexture.pixelY 0.3) :=
  C9_texture_lookup_in_bounds sampleTexture 0.5 0.3
    (by norm_num [sampleTexture]) (by norm_num [sampleTexture])

end Raycast
